import Mathlib

/-!
Verification of the batch-collation core (`helpers/training/collate.py`) of
SimpleTuner, against its natural-language specification.

Shallow embedding conventions:
* A torch tensor is `Tensor`: its shape (list of dimension sizes) together
  with its flattened data as rationals.  The `weight_dtype` / `vae_dtype`
  casts of the source only change numeric precision, never the values the
  spec talks about, so they are not modelled.
* Python exceptions become the `CollateError` sum type, carried by `Except`.
  Each constructor corresponds to one `raise` site (or implicit runtime
  error) of the source; comments give the mapping.
* The per-sample dict is the `Example` structure.  `drop_conditioning` is
  `Option Bool` because the key is absent before the dropout pass runs.
* `np.random.rand()` is a stream `rand : ℕ → ℚ` of draws, consumed with a
  counter that advances exactly when the source evaluates `np.random.rand()`.
* The process-wide `StateTracker` globals become an explicit `StateTracker`
  structure passed to `collate_fn`; in-place mutation of the example list is
  explicit state passing: `collate_fn` returns the mutated list next to the
  batch record.
-/

namespace Collate

/-- A torch tensor: its shape and its flattened contents. -/
structure Tensor where
  shape : List Nat
  data : List ℚ
deriving DecidableEq, Repr

/-- The exceptions `collate.py` can raise, one constructor per raise site
(or implicit runtime error).  Spec names from §7 are noted where the spec
renames a raw Python error. -/
inductive CollateError where
  /-- `Exception("Cannot continue, the original_size or target_size were not provided: ...")`
  in `compute_time_ids`. -/
  | missingSizeError
  /-- `ValueError("Original width must be specified.")` in `compute_time_ids`. -/
  | missingWidthError
  /-- `ValueError("Original height must be specified.")` in `compute_time_ids`. -/
  | missingHeightError
  /-- `ValueError("Crop coordinates were not collected during collate.")`
  in `compute_time_ids`. -/
  | missingCropError
  /-- A Python `IndexError` from out-of-range tuple/list/tensor indexing. -/
  | indexError
  /-- A Python `KeyError` from a missing dict key. -/
  | keyError (key : String)
  /-- A Python `TypeError`, e.g. `None > 0` when the configured
  caption-dropout probability is `None`. -/
  | typeError (msg : String)
  /-- `ZeroDivisionError` from `sum(batch_luminance) / len(batch_luminance)`
  on an empty example list; the spec (§7) calls this `EmptyBatchError`. -/
  | emptyBatchError
  /-- `ValueError("This trainer is not designed to handle multiple batches in a single collate.")`;
  the spec (§7) calls this `MultiBatchNotSupportedError`. -/
  | multiBatchNotSupportedError
  /-- `ValueError(f"File {filepaths[idx]} latent shape mismatch: {latent.shape} != {test_shape}")`
  in `compute_latents`; the spec (§7) calls this `ShapeMismatchError`.  Carries
  the offending sample's key, its shape, and the reference shape. -/
  | shapeMismatchError (key : String) (shape refShape : List Nat)
  /-- `RuntimeError` from `torch.stack` on an empty or shape-inconsistent list. -/
  | stackError
  /-- Python `NameError` for a variable never assigned
  (`data_backend_id` when the example list is empty). -/
  | nameError (var : String)
deriving DecidableEq, Repr

/-- One example dict of the incoming batch (see spec §3 "Sample").
`drop_conditioning` is `Option Bool`: `none` models the key being absent
(it is only added by the dropout pass).  `original_size` components are
`Option ℤ` because `compute_time_ids` explicitly checks them against
`None`; the outer `Option` models the whole field being `None`. -/
structure Example where
  image_path : String
  data_backend_id : String
  instance_prompt_text : String
  original_size : Option (Option ℤ × Option ℤ)
  crop_coordinates : Option (List ℤ)
  drop_conditioning : Option Bool
  luminance : ℚ
deriving DecidableEq, Repr

/-- The embedding cache behind `StateTracker.get_embedcache()`.  Its two
retrieval methods are opaque deterministic functions of the caption list
(spec §6: "deterministic for identical caption text"). -/
structure EmbedCache where
  model_type : String
  /-- `compute_embeddings_for_sdxl_prompts`: returns
  `(prompt_embeds_all, add_text_embeds_all)`. -/
  sdxl_embeddings : List String → Tensor × Tensor
  /-- `compute_embeddings_for_legacy_prompts`: returns a list that the
  source indexes with `[0]`. -/
  legacy_embeddings : List String → List Tensor

/-- The process-wide state `collate_fn` reads through `StateTracker`.
`vaecache backend_id fp` is `get_vaecache(id=backend_id).retrieve_from_cache(fp)`.
The dtype getters are not modelled (they only set numeric precision). -/
structure StateTracker where
  caption_dropout_probability : Option ℚ
  vaecache : String → String → Tensor
  embedcache : EmbedCache

/-- `compute_time_ids` (collate.py lines 21-61), minus logging and the
final `torch.tensor(..., dtype=weight_dtype)` wrap: the returned `[1,6]`
tensor is modelled by the list of its six integer entries.  The order of
the checks and of the two `target_size` index accesses follows the source
(`target_size[2]` is read before `target_size[1]`). -/
def compute_time_ids (original_size : Option (Option ℤ × Option ℤ))
    (target_size : Option (List Nat)) (vae_downscale_factor : ℤ := 8)
    (crop_coordinates : Option (List ℤ) := none) :
    Except CollateError (List ℤ) := do
  match original_size, target_size with
  | none, _ => throw .missingSizeError
  | _, none => throw .missingSizeError
  | some os, some ts =>
    let original_width := os.1
    let original_height := os.2
    let ts2 ← match ts.get? 2 with
      | some v => pure v
      | none => throw .indexError
    let ts1 ← match ts.get? 1 with
      | some v => pure v
      | none => throw .indexError
    let target_width : ℤ := (ts2 : ℤ) * vae_downscale_factor
    let target_height : ℤ := (ts1 : ℤ) * vae_downscale_factor
    match original_width, original_height, crop_coordinates with
    | none, _, _ => throw .missingWidthError
    | _, none, _ => throw .missingHeightError
    | _, _, none => throw .missingCropError
    | some ow, some oh, some crop =>
      pure ([oh, ow] ++ crop ++ [target_height, target_width])

/-- `fetch_latent`: retrieve one latent from the VAE cache.  The
`.to("cpu").pin_memory()` transfer does not change the tensor's value. -/
def fetch_latent (vaecache : String → String → Tensor) (fp : String)
    (data_backend_id : String) : Tensor :=
  vaecache data_backend_id fp

/-- The shape-validation loop of `compute_latents`:
`for idx, latent in enumerate(latents): if latent.shape != test_shape: raise ...`.
Returns the key and shape of the first offending latent, if any;
`filepaths` is walked in lockstep with the index. -/
def findShapeMismatch (refShape : List Nat) :
    List Tensor → List String → Option (String × List Nat)
  | [], _ => none
  | t :: ts, fps =>
    if t.shape ≠ refShape then some (fps.headD "", t.shape)
    else findShapeMismatch refShape ts (fps.drop 1)

/-- Product of a shape's dimensions: the number of scalar entries. -/
def shapeProd (s : List Nat) : Nat := s.foldr (fun a b => a * b) 1

/-- `torch.stack(latents)`: requires a non-empty list of equal-shaped
tensors; the result has shape `len :: shape₀` and the concatenated data. -/
def torch_stack (latents : List Tensor) : Except CollateError Tensor :=
  match latents.head? with
  | none => throw .stackError
  | some t0 =>
    if latents.all (fun t => t.shape = t0.shape) then
      pure ⟨latents.length :: t0.shape,
            latents.foldr (fun t acc => t.data ++ acc) []⟩
    else throw .stackError

/-- Iterating a tensor (as `enumerate(latents)` does on a stacked batch
tensor in `check_latent_shapes`) yields its slices along dimension 0; every
slice has the tail of the batch shape as its shape. -/
def unstack (t : Tensor) : List Tensor :=
  match t.shape with
  | [] => []
  | n :: s => (List.range n).map
      (fun i => ⟨s, (t.data.drop (i * shapeProd s)).take (shapeProd s)⟩)

/-- `compute_latents` (collate.py lines 97-113): fetch every latent (the
thread-pool `executor.map` preserves input order, see `executorMapSched`
below for the schedule-independence argument), validate all shapes against
the first latent's shape (`latents[0]` raises `IndexError` when the list is
empty), and stack. -/
def compute_latents (vaecache : String → String → Tensor)
    (filepaths : List String) (data_backend_id : String) :
    Except CollateError Tensor :=
  let latents := filepaths.map (fun fp => fetch_latent vaecache fp data_backend_id)
  match latents.head? with
  | none => throw .indexError
  | some t0 =>
    match findShapeMismatch t0.shape latents filepaths with
    | some (fp, sh) => throw (.shapeMismatchError fp sh t0.shape)
    | none => torch_stack latents

/-- `compute_prompt_embeddings` (collate.py lines 116-135).  The source
dispatches on `embedcache.model_type`, not on its own (unused) `model_type`
parameter, which is kept here for signature fidelity.
`torch.concat([t for _ in range(1)], dim=0)` concatenates a single tensor
and is the identity on its value. -/
def compute_prompt_embeddings (embedcache : EmbedCache) (captions : List String)
    (model_type : String := "sdxl") :
    Except CollateError (Tensor × Option Tensor) :=
  if embedcache.model_type = "sdxl" then
    let pe := embedcache.sdxl_embeddings captions
    pure (pe.1, some pe.2)
  else
    match (embedcache.legacy_embeddings captions).get? 0 with
    | some prompt_embeds_all => pure (prompt_embeds_all, none)
    | none => throw .indexError

/-- The loop body of `gather_conditional_size_features`: walk the examples
and, in index lockstep, the slices of the stacked latent tensor
(`latents[idx].shape`).  Reading `example["drop_conditioning"]` raises
`KeyError` when the key was never set; `target_size` is the slice's shape
and `vae_downscale_factor` is left at its default 8, as at the call site. -/
def gatherTimeIds : List Example → List Tensor → Except CollateError (List (List ℤ))
  | [], _ => pure []
  | ex :: rest, slices => do
    let lat ← match slices.head? with
      | some l => pure l
      | none => throw .indexError
    let time_ids ← compute_time_ids ex.original_size (some lat.shape) 8
      ex.crop_coordinates
    let drop ← match ex.drop_conditioning with
      | some b => pure b
      | none => throw (.keyError "drop_conditioning")
    let time_ids := if drop then time_ids.map (fun _ => 0) else time_ids
    let tail ← gatherTimeIds rest (slices.drop 1)
    pure (time_ids :: tail)

/-- `gather_conditional_size_features` (collate.py lines 138-156), minus the
unused `weight_dtype` cast: one six-entry time-ids vector per example,
zeroed (`torch.zeros_like`) for dropped examples, in sample order.  The
final `torch.stack(..., dim=0)` is modelled by returning the list of
vectors. -/
def gather_conditional_size_features (examples : List Example)
    (latents : Tensor) : Except CollateError (List (List ℤ)) :=
  gatherTimeIds examples (unstack latents)

/-- The diagnostic loop body of `check_latent_shapes`: collect
(the source prints) the filepath of every slice whose shape differs from
the reference shape, walking filepaths in index lockstep. -/
def collectShapeDiagnostics (refShape : List Nat) :
    List Tensor → List String → List String
  | [], _ => []
  | t :: ts, fps =>
    if t.shape ≠ refShape then
      fps.headD "" :: collectShapeDiagnostics refShape ts (fps.drop 1)
    else collectShapeDiagnostics refShape ts (fps.drop 1)

/-- `check_latent_shapes` (collate.py lines 159-163), the lenient validator:
called on the stacked batch tensor, it iterates the slices, compares each
slice's shape to the first slice's, and prints (here: returns) a diagnostic
per mismatch without raising.  `latents[0]` raises `IndexError` on an
empty tensor. -/
def check_latent_shapes (latent_batch : Tensor) (filepaths : List String) :
    Except CollateError (List String) := do
  let latents := unstack latent_batch
  let reference_shape ← match latents.head? with
    | some l0 => pure l0.shape
    | none => throw .indexError
  pure (collectShapeDiagnostics reference_shape latents filepaths)

/-- The caption-dropout loop of `collate_fn` (lines 177-188).  `k` counts
the `np.random.rand()` draws consumed so far; a draw happens exactly when
`dropout_probability > 0` already evaluated to `True` (Python `and`
short-circuits).  When the probability is `None`, `None > 0` raises
`TypeError` before the (dead) `is not None` guard is reached. -/
def dropoutExamples (p : Option ℚ) (rand : ℕ → ℚ) :
    List Example → ℕ → Except CollateError (List Example × ℕ)
  | [], k => pure ([], k)
  | ex :: rest, k =>
    match p with
    | none =>
      throw (.typeError "unsupported operand: NoneType > int")
    | some q =>
      if q > 0 then
        if rand k < q then do
          let (rest', k') ← dropoutExamples (some q) rand rest (k + 1)
          pure ({ ex with instance_prompt_text := "",
                          drop_conditioning := some true } :: rest', k')
        else do
          let (rest', k') ← dropoutExamples (some q) rand rest (k + 1)
          pure ({ ex with drop_conditioning := some false } :: rest', k')
      else do
        let (rest', k') ← dropoutExamples (some q) rand rest k
        pure ({ ex with drop_conditioning := some false } :: rest', k')

/-- The five-key output record of `collate_fn` (spec §3 "Batch Record"). -/
structure BatchRecord where
  latent_batch : Tensor
  prompt_embeds : Tensor
  add_text_embeds : Option Tensor
  batch_time_ids : Option (List (List ℤ))
  batch_luminance : ℚ
deriving DecidableEq, Repr

/-- `collate_fn` (collate.py lines 166-220).  Steps in source order:
multi-batch guard, caption dropout (mutating the examples), average
luminance (`ZeroDivisionError` on an empty list), latent fetch + strict
shape check, lenient shape check (diagnostics discarded, as the source
only prints them), cached text embeddings, and — only when the pooled
embedding is present — time-ids synthesis.  The dropout loop assigns
`data_backend_id` from each example in turn, so the fetch uses the last
example's backend id; with no examples the variable would be unbound
(`NameError`), but the luminance division fails first.  In-place caption
mutation is modelled by returning the mutated example list alongside the
record. -/
def collate_fn (st : StateTracker) (rand : ℕ → ℚ)
    (batch : List (List Example)) :
    Except CollateError (BatchRecord × List Example) := do
  if batch.length ≠ 1 then throw .multiBatchNotSupportedError
  let examples := batch.headD []
  let (examples, _) ← dropoutExamples st.caption_dropout_probability rand examples 0
  if examples.length = 0 then throw .emptyBatchError
  let batch_luminance := (examples.map (·.luminance)).sum / (examples.length : ℚ)
  let filepaths := examples.map (·.image_path)
  let data_backend_id ← match examples.getLast? with
    | some ex => pure ex.data_backend_id
    | none => throw (.nameError "data_backend_id")
  let latent_batch ← compute_latents st.vaecache filepaths data_backend_id
  let _diagnostics ← check_latent_shapes latent_batch filepaths
  let captions := examples.map (·.instance_prompt_text)
  let pe ← compute_prompt_embeddings st.embedcache captions
  let prompt_embeds_all := pe.1
  let add_text_embeds_all := pe.2
  let batch_time_ids ← match add_text_embeds_all with
    | some _ => do
      let tids ← gather_conditional_size_features examples latent_batch
      pure (some tids)
    | none => pure (none : Option (List (List ℤ)))
  pure ({ latent_batch := latent_batch
          prompt_embeds := prompt_embeds_all
          add_text_embeds := add_text_embeds_all
          batch_time_ids := batch_time_ids
          batch_luminance := batch_luminance }, examples)

/-!
Model of the thread-pool fan-out of `compute_latents`
(`concurrent.futures.ThreadPoolExecutor` + `executor.map`): each fetch task
`i` writes its result into slot `i` of an index-addressed result array, and
tasks complete in an arbitrary order.  `executor.map` returns the slots in
index order, so the output is independent of the completion schedule.
-/

/-- Index-addressed result slots: starting from `n` empty slots, process
completion events in schedule order; the event for task `i` stores that
task's value in slot `i`. -/
def fillSlots (n : ℕ) (value : ℕ → α) (sched : List ℕ) : List (Option α) :=
  sched.foldl (fun slots i => slots.set i (some (value i))) (List.replicate n none)

/-- The fetch fan-out under an arbitrary completion schedule `sched` (a
permutation of the task indices): run all tasks, then read the slots in
index order. -/
def executorMapSched (fetch : String → Tensor) (keys : List String)
    (sched : List ℕ) : List (Option Tensor) :=
  fillSlots keys.length (fun i => fetch (keys.getD i "")) sched

/-! Concrete fixtures used to instantiate the theorems below on closed
inputs: a 1×2×2 latent, one example, constant caches, and state-tracker
configurations for the sdxl (dual-embedding) and legacy (single-embedding)
variants. -/

/-- A small concrete latent tensor of shape `[1, 2, 2]`. -/
def latW : Tensor := ⟨[1, 2, 2], [1, 2, 3, 4]⟩

/-- A concrete example with a 512×512 original size and zero crop. -/
def exW : Example :=
  { image_path := "a.png", data_backend_id := "b1",
    instance_prompt_text := "a cat",
    original_size := some (some 512, some 512),
    crop_coordinates := some [0, 0],
    drop_conditioning := none, luminance := 1/2 }

/-- A VAE cache that serves `latW` for every key. -/
def cacheW : String → String → Tensor := fun _ _ => latW

/-- A concrete embedding cache in the sdxl (dual-embedding) configuration. -/
def embW : EmbedCache :=
  { model_type := "sdxl",
    sdxl_embeddings := fun caps =>
      (⟨[caps.length, 2], List.replicate (2 * caps.length) 1⟩,
       ⟨[caps.length, 1], List.replicate caps.length 2⟩),
    legacy_embeddings := fun caps =>
      [⟨[caps.length, 2], List.replicate (2 * caps.length) 3⟩] }

/-- The same embedding cache in the legacy (single-embedding) configuration. -/
def embLegacyW : EmbedCache := { embW with model_type := "legacy" }

/-- Concrete state: dropout probability 0, dual-embedding model. -/
def stW : StateTracker :=
  { caption_dropout_probability := some 0, vaecache := cacheW, embedcache := embW }

/-- A constant stream of random draws, all equal to 1/2. -/
def randW : ℕ → ℚ := fun _ => 1/2

/-- `exW` after a non-dropping dropout pass: only the flag is set. -/
def exDropW : Example := { exW with drop_conditioning := some false }

/-- The batch record `collate_fn stW randW [[exW]]` produces (the
luminance slot is kept in the unreduced mean form the code computes). -/
def recW : BatchRecord :=
  { latent_batch := ⟨[1, 1, 2, 2], [1, 2, 3, 4]⟩
    prompt_embeds := ⟨[1, 2], [1, 1]⟩
    add_text_embeds := some ⟨[1, 1], [2]⟩
    batch_time_ids := some [[512, 512, 0, 0, 16, 16]]
    batch_luminance :=
      (List.map (fun x => x.luminance) [exDropW]).sum /
        (([exDropW] : List Example).length : ℚ) }

/-- The batch record produced under the legacy (single-embedding) variant. -/
def recLegacyW : BatchRecord :=
  { latent_batch := ⟨[1, 1, 2, 2], [1, 2, 3, 4]⟩
    prompt_embeds := ⟨[1, 2], [3, 3]⟩
    add_text_embeds := none
    batch_time_ids := none
    batch_luminance :=
      (List.map (fun x => x.luminance) [exDropW]).sum /
        (([exDropW] : List Example).length : ℚ) }

/-!  General inversion helpers for the `Except` monad. -/

/-- Success of a bind splits into success of both stages. -/
theorem except_bind_ok {ε α β : Type} (m : Except ε α) (f : α → Except ε β)
    (b : β) : m >>= f = Except.ok b ↔ ∃ a, m = Except.ok a ∧ f a = Except.ok b := by
  cases m <;> simp [Bind.bind, Except.bind]

/-- `pure` in `Except` is `Except.ok`. -/
theorem except_pure_def {ε α : Type} (a : α) :
    (pure a : Except ε α) = Except.ok a := rfl

/-- `throw` in `Except` is `Except.error`. -/
theorem except_throw_def {ε α : Type} (e : ε) :
    (throw e : Except ε α) = Except.error e := rfl

/-! Dropout-pass lemmas. -/

/-- The dropout pass only ever touches `instance_prompt_text` and
`drop_conditioning`: all other fields of every example survive unchanged,
in order. -/
theorem dropoutExamples_preserves {p : Option ℚ} {rand : ℕ → ℚ} :
    ∀ (exs : List Example) (k : ℕ) (exs' : List Example) (k' : ℕ),
      dropoutExamples p rand exs k = .ok (exs', k') →
      List.Forall₂ (fun a b =>
        b.image_path = a.image_path ∧ b.data_backend_id = a.data_backend_id ∧
        b.original_size = a.original_size ∧
        b.crop_coordinates = a.crop_coordinates ∧
        b.luminance = a.luminance) exs exs'
  | [], k, exs', k', h => by
    simp only [dropoutExamples, except_pure_def, Except.ok.injEq, Prod.mk.injEq] at h
    rw [← h.1]
    exact List.Forall₂.nil
  | ex :: rest, k, exs', k', h => by
    cases p with
    | none => exact absurd h (by simp [dropoutExamples, except_throw_def])
    | some q =>
      simp only [dropoutExamples] at h
      split at h <;> [skip; skip] <;> first
      | (split at h <;> [skip; skip]) <;> first
        | (cases hrec : dropoutExamples (some q) rand rest (k + 1) with
           | error e => rw [hrec] at h; exact absurd h (by simp [Bind.bind, Except.bind])
           | ok pr =>
             rw [hrec] at h
             simp only [Bind.bind, Except.bind, except_pure_def, Except.ok.injEq,
               Prod.mk.injEq] at h
             rw [← h.1]
             exact List.Forall₂.cons ⟨rfl, rfl, rfl, rfl, rfl⟩
               (dropoutExamples_preserves rest _ pr.1 pr.2 hrec))
      | (cases hrec : dropoutExamples (some q) rand rest k with
         | error e => rw [hrec] at h; exact absurd h (by simp [Bind.bind, Except.bind])
         | ok pr =>
           rw [hrec] at h
           simp only [Bind.bind, Except.bind, except_pure_def, Except.ok.injEq,
             Prod.mk.injEq] at h
           rw [← h.1]
           exact List.Forall₂.cons ⟨rfl, rfl, rfl, rfl, rfl⟩
             (dropoutExamples_preserves rest _ pr.1 pr.2 hrec))

/-- With probability 0 (or any non-positive probability) the dropout pass
consumes no random draws, keeps every caption, and sets every
`drop_conditioning` flag to `false`. -/
theorem dropoutExamples_nonpos {q : ℚ} (hq : ¬ q > 0) (rand : ℕ → ℚ) :
    ∀ (exs : List Example) (k : ℕ),
      dropoutExamples (some q) rand exs k =
        .ok (exs.map (fun e => { e with drop_conditioning := some false }), k)
  | [], k => rfl
  | ex :: rest, k => by
    simp only [dropoutExamples, if_neg hq,
      dropoutExamples_nonpos hq rand rest k, List.map_cons]
    rfl

/-- With probability 1 and every draw below 1, the dropout pass clears
every caption, sets every flag to `true`, and consumes one draw per
example. -/
theorem dropoutExamples_one {rand : ℕ → ℚ} (hrand : ∀ j, rand j < 1) :
    ∀ (exs : List Example) (k : ℕ),
      dropoutExamples (some 1) rand exs k =
        .ok (exs.map (fun e =>
          { e with instance_prompt_text := "", drop_conditioning := some true }),
          k + exs.length)
  | [], k => rfl
  | ex :: rest, k => by
    simp only [dropoutExamples, if_pos one_pos, if_pos (hrand k),
      dropoutExamples_one hrand rest (k + 1), List.map_cons, List.length_cons]
    simp [bind, Except.bind, except_pure_def]
    omega

/-- With a `None` probability the first loop iteration evaluates
`None > 0` and fails with `TypeError`. -/
theorem dropoutExamples_none {rand : ℕ → ℚ} :
    ∀ (exs : List Example), exs ≠ [] → ∀ (k : ℕ),
      dropoutExamples none rand exs k =
        .error (.typeError "unsupported operand: NoneType > int")
  | [], h, _ => absurd rfl h
  | _ :: _, _, _ => rfl

/-- Inversion of a successful `collate_fn` call: recover what every
pipeline stage produced.  A success implies the multi-batch guard passed,
the dropout pass succeeded and produced the returned example list, that
list is non-empty, the luminance is the arithmetic mean, the latents came
from `compute_latents` under the last example's backend id, the embeddings
came from `compute_prompt_embeddings`, and the time-ids slot is governed by
the pooled-embedding slot. -/
theorem collate_fn_ok_inv {st : StateTracker} {rand : ℕ → ℚ}
    {batch : List (List Example)} {rec : BatchRecord} {exs' : List Example}
    (h : collate_fn st rand batch = .ok (rec, exs')) :
    batch.length = 1 ∧
    (∃ k, dropoutExamples st.caption_dropout_probability rand (batch.headD []) 0
        = .ok (exs', k)) ∧
    exs' ≠ [] ∧
    rec.batch_luminance = (exs'.map (·.luminance)).sum / (exs'.length : ℚ) ∧
    (∃ exl, exs'.getLast? = some exl ∧
      compute_latents st.vaecache (exs'.map (·.image_path)) exl.data_backend_id
        = .ok rec.latent_batch) ∧
    (∃ pe, compute_prompt_embeddings st.embedcache
        (exs'.map (·.instance_prompt_text)) = .ok pe ∧
      rec.prompt_embeds = pe.1 ∧ rec.add_text_embeds = pe.2 ∧
      ((pe.2 = none ∧ rec.batch_time_ids = none) ∨
       (∃ t tids, pe.2 = some t ∧
         gather_conditional_size_features exs' rec.latent_batch = .ok tids ∧
         rec.batch_time_ids = some tids))) := by
  unfold collate_fn at h
  by_cases hlen : batch.length ≠ 1
  · rw [if_pos hlen] at h
    exact absurd h (by simp [Bind.bind, Except.bind, except_throw_def])
  · rw [if_neg hlen] at h
    simp only [Bind.bind, Except.bind, except_pure_def, except_throw_def] at h
    split at h
    · exact absurd h (by simp)
    rename_i pr hdrop
    obtain ⟨exs₀, k₀⟩ := pr
    dsimp only at h
    split at h
    · exact absurd h (by simp)
    rename_i h0
    split at h
    rotate_left
    · exact absurd h (by simp)
    rename_i exl hlast
    split at h
    · exact absurd h (by simp)
    rename_i lb hcl
    split at h
    · exact absurd h (by simp)
    rename_i diag hchk
    split at h
    · exact absurd h (by simp)
    rename_i pe hpe
    split at h
    case _ t hsnd =>
      split at h
      · exact absurd h (by simp)
      rename_i tids hg
      simp only [Except.ok.injEq, Prod.mk.injEq] at h
      obtain ⟨hrec, hexs⟩ := h
      subst hexs
      refine ⟨by omega, ⟨k₀, hdrop⟩,
        (by intro hnil; exact h0 (by rw [hnil]; rfl)),
        ?_, ⟨exl, hlast, ?_⟩, ⟨pe, hpe, ?_, ?_, ?_⟩⟩
      · rw [← hrec]
      · rw [← hrec]; exact hcl
      · rw [← hrec]
      · rw [← hrec]
      · exact Or.inr ⟨t, tids, hsnd, by rw [← hrec]; exact hg, by rw [← hrec]⟩
    case _ hsnd =>
      simp only [Except.ok.injEq, Prod.mk.injEq] at h
      obtain ⟨hrec, hexs⟩ := h
      subst hexs
      refine ⟨by omega, ⟨k₀, hdrop⟩,
        (by intro hnil; exact h0 (by rw [hnil]; rfl)),
        ?_, ⟨exl, hlast, ?_⟩, ⟨pe, hpe, ?_, ?_, ?_⟩⟩
      · rw [← hrec]
      · rw [← hrec]; exact hcl
      · rw [← hrec]
      · rw [← hrec]
      · exact Or.inl ⟨hsnd, by rw [← hrec]⟩

/-- C1: For every non-dropped sample, `compute_time_ids` returns the
vector `(original_height, original_width, crop_top, crop_left,
latent_height_dim * downscale_factor, latent_width_dim * downscale_factor)`
— `[h, w, h, w, h, w]` ordering, height before width even though the
latent shape stores `(channels, height, width)`.  In particular, with
downscale factor 8, latent spatial dims 16×16, `original_size = (512, 512)`
given as `(width, height)`, and zero crop, the vector is
`(512, 512, 0, 0, 128, 128)`; and the time-ids loop produces exactly this
vector for a sample whose `drop_conditioning` flag is `false`. -/
theorem C1_compute_time_ids_ordering :
    (∀ (ow oh ct cl : ℤ) (c hd wd : ℕ) (f : ℤ),
      compute_time_ids (some (some ow, some oh)) (some [c, hd, wd]) f
          (some [ct, cl]) =
        .ok [oh, ow, ct, cl, (hd : ℤ) * f, (wd : ℤ) * f]) ∧
    compute_time_ids (some (some 512, some 512)) (some [4, 16, 16]) 8
        (some [0, 0]) = .ok [512, 512, 0, 0, 128, 128] ∧
    (∀ (path bid cap : String) (ow oh ct cl : ℤ) (lum : ℚ) (c hd wd : ℕ)
        (d : List ℚ),
      gatherTimeIds
        [{ image_path := path, data_backend_id := bid,
           instance_prompt_text := cap,
           original_size := some (some ow, some oh),
           crop_coordinates := some [ct, cl],
           drop_conditioning := some false, luminance := lum }]
        [⟨[c, hd, wd], d⟩] =
        .ok [[oh, ow, ct, cl, (hd : ℤ) * 8, (wd : ℤ) * 8]]) :=
  ⟨fun _ _ _ _ _ _ _ _ => rfl, rfl,
   fun _ _ _ _ _ _ _ _ _ _ _ _ => rfl⟩

/-- C2 (code bug): with a `None` caption-dropout probability and a
non-empty example list, the dropout loop evaluates `None > 0`, which raises
`TypeError` before the (short-circuited, hence dead) `is not None` guard is
reached — the call does not complete, contrary to the spec's "null means
disabled". -/
theorem C2_null_probability_raises_typeerror :
    collate_fn { stW with caption_dropout_probability := none } randW [[exW]] =
      .error (.typeError "unsupported operand: NoneType > int") ∧
    dropoutExamples none randW [exW] 0 =
      .error (.typeError "unsupported operand: NoneType > int") :=
  ⟨rfl, rfl⟩

/-- C3: a single batch group with zero examples fails with
`EmptyBatchError` (the `ZeroDivisionError` of the luminance mean) at the
average-luminance step — for every state tracker and random stream, so in
particular before and independently of any latent-cache fetch. -/
theorem C3_empty_batch_error (st : StateTracker) (rand : ℕ → ℚ) :
    collate_fn st rand [[]] = .error .emptyBatchError := rfl

/-- C3 witness: the theorem instantiated at the concrete fixture state. -/
theorem C3_empty_batch_error_witness :
    collate_fn stW randW [[]] = .error .emptyBatchError :=
  C3_empty_batch_error stW randW

/-- C8: a call whose outer batch list does not contain exactly one group
fails with `MultiBatchNotSupportedError` — the guard is the first statement
of `collate_fn`, so no dropout, fetch, or embedding work is reachable and
the result does not depend on any of those components. -/
theorem C8_multi_batch_guard (st : StateTracker) (rand : ℕ → ℚ)
    (batch : List (List Example)) (h : batch.length ≠ 1) :
    collate_fn st rand batch = .error .multiBatchNotSupportedError := by
  unfold collate_fn
  rw [if_pos h]
  rfl

/-- C8 witness: two batch groups in one call. -/
theorem C8_multi_batch_guard_witness :
    collate_fn stW randW [[], []] = .error .multiBatchNotSupportedError :=
  C8_multi_batch_guard stW randW [[], []] (by decide)

/-- If every example in the list carries `drop_conditioning = some true`,
then every vector the time-ids loop returns is all zeros
(the `torch.zeros_like` override). -/
theorem gatherTimeIds_dropped :
    ∀ (exs : List Example) (slices : List Tensor) (tids : List (List ℤ)),
      (∀ e ∈ exs, e.drop_conditioning = some true) →
      gatherTimeIds exs slices = .ok tids →
      ∀ v ∈ tids, ∀ x ∈ v, x = 0
  | [], _, tids, _, h => by
    simp only [gatherTimeIds, except_pure_def, Except.ok.injEq] at h
    subst h
    intro v hv
    simp at hv
  | ex :: rest, slices, tids, hall, h => by
    cases hs : slices.head? with
    | none =>
      simp [gatherTimeIds, hs, Bind.bind, Except.bind, except_pure_def] at h
    | some lat =>
      cases hti : compute_time_ids ex.original_size (some lat.shape) 8
          ex.crop_coordinates with
      | error e =>
        simp [gatherTimeIds, hs, hti, Bind.bind, Except.bind,
          except_pure_def] at h
      | ok tid =>
        have hd : ex.drop_conditioning = some true := hall ex (by simp)
        cases hrest : gatherTimeIds rest slices.tail with
        | error e =>
          simp [gatherTimeIds, hs, hti, hd, hrest, Bind.bind, Except.bind,
            except_pure_def] at h
        | ok tl =>
          simp [gatherTimeIds, hs, hti, hd, hrest, Bind.bind, Except.bind,
            except_pure_def] at h
          subst h
          intro v hv
          rcases List.mem_cons.mp hv with hv | hv
          · intro x hx
            rw [hv] at hx
            exact List.eq_of_mem_replicate hx
          · exact gatherTimeIds_dropped rest slices.tail tl
              (fun e he => hall e (by simp [he])) hrest v hv

/-- C5: with dropout probability 0 a successful collation returns the
examples with every caption intact and every flag `false`; with
probability 1 and all draws in `[0,1)` it returns them with every caption
cleared and every flag `true`, and every conditioning vector present in
the output record is the zero vector. -/
theorem C5_dropout_probability_extremes (st : StateTracker) (rand : ℕ → ℚ)
    (hrand : ∀ j, 0 ≤ rand j ∧ rand j < 1) (batch : List (List Example)) :
    (st.caption_dropout_probability = some 0 →
      ∀ rec exs', collate_fn st rand batch = .ok (rec, exs') →
        exs' = (batch.headD []).map
          (fun e => { e with drop_conditioning := some false })) ∧
    (st.caption_dropout_probability = some 1 →
      ∀ rec exs', collate_fn st rand batch = .ok (rec, exs') →
        exs' = (batch.headD []).map
          (fun e => { e with instance_prompt_text := "",
                             drop_conditioning := some true }) ∧
        ∀ tids, rec.batch_time_ids = some tids →
          ∀ v ∈ tids, ∀ x ∈ v, x = 0) := by
  constructor
  · intro hp rec exs' h
    obtain ⟨-, ⟨k, hdrop⟩, -⟩ := collate_fn_ok_inv h
    rw [hp, dropoutExamples_nonpos (by norm_num) rand _ 0] at hdrop
    simp only [Except.ok.injEq, Prod.mk.injEq] at hdrop
    exact hdrop.1.symm
  · intro hp rec exs' h
    obtain ⟨-, ⟨k, hdrop⟩, -, -, -, pe, hpe, -, hsndEq, hdisj⟩ :=
      collate_fn_ok_inv h
    rw [hp, dropoutExamples_one (fun j => (hrand j).2) _ 0] at hdrop
    simp only [Except.ok.injEq, Prod.mk.injEq] at hdrop
    obtain ⟨hexs, -⟩ := hdrop
    refine ⟨hexs.symm, ?_⟩
    intro tids htids v hv
    rcases hdisj with ⟨-, hnone⟩ | ⟨t, tids', -, hg, hsome⟩
    · rw [hnone] at htids
      exact absurd htids (by simp)
    · rw [hsome] at htids
      injection htids with he
      subst he
      have hall : ∀ e ∈ exs', e.drop_conditioning = some true := by
        intro e he
        rw [← hexs] at he
        obtain ⟨y, -, hy⟩ := List.mem_map.mp he
        rw [← hy]
      simp only [gather_conditional_size_features] at hg
      exact gatherTimeIds_dropped exs' (unstack rec.latent_batch) tids' hall
        hg v hv

/-- C5 witness: the probability-0 part instantiated at the concrete
fixture run, with the draw bounds checked at draw 0. -/
theorem C5_dropout_probability_extremes_witness :
    0 ≤ randW 0 ∧ randW 0 < 1 ∧
    [exDropW] =
      ([[exW]].headD []).map
        (fun e => { e with drop_conditioning := some false }) :=
  ⟨by norm_num [randW], by norm_num [randW],
   (C5_dropout_probability_extremes stW randW
      (fun j => ⟨by norm_num [randW], by norm_num [randW]⟩) [[exW]]).1
     rfl recW [exDropW] rfl⟩

/-- C6: under the single-embedding model variant (`model_type ≠ "sdxl"`),
the embedding dispatcher returns a `none` pooled component, and a
successful collation has `none` in both the pooled-embedding and the
conditioning (time-ids) slots: the conditioning synthesizer is never
reached. -/
theorem C6_single_variant_skips_conditioning (st : StateTracker)
    (rand : ℕ → ℚ) (batch : List (List Example))
    (hsingle : st.embedcache.model_type ≠ "sdxl") :
    (∀ captions pe,
      compute_prompt_embeddings st.embedcache captions = .ok pe →
      pe.2 = none) ∧
    (∀ rec exs', collate_fn st rand batch = .ok (rec, exs') →
      rec.add_text_embeds = none ∧ rec.batch_time_ids = none) := by
  have hpe2 : ∀ captions pe,
      compute_prompt_embeddings st.embedcache captions = .ok pe →
      pe.2 = none := by
    intro caps pe h
    simp only [compute_prompt_embeddings, if_neg hsingle] at h
    split at h
    · simp only [except_pure_def, Except.ok.injEq] at h
      rw [← h]
    · exact absurd h (by simp [except_throw_def])
  refine ⟨hpe2, ?_⟩
  intro rec exs' h
  obtain ⟨-, -, -, -, -, pe, hpe, -, hsndEq, hdisj⟩ := collate_fn_ok_inv h
  have h2 := hpe2 _ pe hpe
  rcases hdisj with ⟨-, hnone⟩ | ⟨t, tids, hsome, -, -⟩
  · exact ⟨by rw [hsndEq, h2], hnone⟩
  · rw [h2] at hsome
    exact absurd hsome (by simp)

/-- C6 witness: the concrete legacy-variant fixture run has `none` in both
output slots. -/
theorem C6_single_variant_skips_conditioning_witness :
    recLegacyW.add_text_embeds = none ∧ recLegacyW.batch_time_ids = none :=
  (C6_single_variant_skips_conditioning
      { stW with embedcache := embLegacyW } randW [[exW]] (by decide)).2
    recLegacyW [exDropW] rfl

/-- C9: a successful collation mutates only `instance_prompt_text` and
`drop_conditioning`: the returned example list matches the input list
element by element on `image_path`, `data_backend_id`, `original_size`,
`crop_coordinates`, and `luminance`. -/
theorem C9_frame_effect (st : StateTracker) (rand : ℕ → ℚ)
    (batch : List (List Example)) (rec : BatchRecord) (exs' : List Example)
    (h : collate_fn st rand batch = .ok (rec, exs')) :
    List.Forall₂ (fun a b =>
      b.image_path = a.image_path ∧ b.data_backend_id = a.data_backend_id ∧
      b.original_size = a.original_size ∧
      b.crop_coordinates = a.crop_coordinates ∧
      b.luminance = a.luminance) (batch.headD []) exs' := by
  obtain ⟨-, ⟨k, hdrop⟩, -⟩ := collate_fn_ok_inv h
  exact dropoutExamples_preserves _ 0 exs' k hdrop

/-- C9 witness: the concrete fixture run preserves every field except the
caption and the flag. -/
theorem C9_frame_effect_witness :
    List.Forall₂ (fun a b =>
      b.image_path = a.image_path ∧ b.data_backend_id = a.data_backend_id ∧
      b.original_size = a.original_size ∧
      b.crop_coordinates = a.crop_coordinates ∧
      b.luminance = a.luminance)
      ([[exW]].headD []) [exDropW] :=
  C9_frame_effect stW randW [[exW]] recW [exDropW] rfl

/-! Schedule-independence of the index-addressed fetch fan-out. -/

/-- Slot `j` after processing a schedule: written (with task `j`'s own
value) exactly when `j` occurs in the schedule and is a valid slot index;
untouched otherwise. -/
theorem fillSlots_foldl_getElem? {α : Type} (value : ℕ → α) :
    ∀ (sched : List ℕ) (init : List (Option α)) (j : ℕ),
      (sched.foldl (fun slots i => slots.set i (some (value i))) init)[j]? =
        if j ∈ sched ∧ j < init.length then some (some (value j))
        else init[j]?
  | [], init, j => by simp
  | i :: sched, init, j => by
    rw [List.foldl_cons,
      fillSlots_foldl_getElem? value sched (init.set i (some (value i))) j,
      List.length_set]
    by_cases hjs : j ∈ sched
    · by_cases hjL : j < init.length
      · simp [hjs, hjL]
      · simp only [hjs, hjL, and_false, if_false, List.mem_cons]
        rw [List.getElem?_eq_none (by simpa using Nat.le_of_not_lt hjL),
          List.getElem?_eq_none (Nat.le_of_not_lt hjL)]
    · by_cases hji : j = i
      · subst hji
        by_cases hjL : j < init.length
        · simp [hjs, hjL, List.getElem?_set_self hjL]
        · simp only [hjs, false_and, if_false, List.mem_cons, true_or, hjL,
            and_false]
          rw [List.getElem?_eq_none (by simpa using Nat.le_of_not_lt hjL)]
          exact (List.getElem?_eq_none (Nat.le_of_not_lt hjL)).symm
      · simp [hjs, hji, List.getElem?_set_ne (fun he => hji he.symm)]

/-- If the schedule is a permutation of the task indices, the filled slots
are exactly the tasks' values in index order — independent of the
schedule. -/
theorem fillSlots_perm {α : Type} (n : ℕ) (value : ℕ → α) (sched : List ℕ)
    (hperm : sched.Perm (List.range n)) :
    fillSlots n value sched = (List.range n).map (fun j => some (value j)) := by
  apply List.ext_getElem?
  intro j
  unfold fillSlots
  rw [fillSlots_foldl_getElem? value sched (List.replicate n none) j]
  by_cases hj : j < n
  · rw [if_pos ⟨hperm.mem_iff.mpr (List.mem_range.mpr hj), by simpa using hj⟩,
      List.getElem?_map, List.getElem?_range hj]
    rfl
  · rw [if_neg (fun hc => hj (by simpa using hc.2)),
      List.getElem?_eq_none (by simpa using Nat.le_of_not_lt hj),
      List.getElem?_eq_none (by simpa using Nat.le_of_not_lt hj)]

/-- C7: the concurrent latent fetch is order-preserving regardless of task
completion order.  For every completion schedule (permutation of the task
indices), the index-addressed result slots of the fan-out equal the
latents of the input keys in input order: the output has the input's
length, its `i`-th slot holds the latent fetched for the `i`-th filepath,
and unwrapping the slots yields exactly the ordered latent list that
`compute_latents` validates and stacks. -/
theorem C7_fetch_order_schedule_independent
    (vaecache : String → String → Tensor) (filepaths : List String)
    (data_backend_id : String) (sched : List ℕ)
    (hperm : sched.Perm (List.range filepaths.length)) :
    executorMapSched (fun fp => fetch_latent vaecache fp data_backend_id)
        filepaths sched =
      filepaths.map
        (fun fp => some (fetch_latent vaecache fp data_backend_id)) ∧
    (executorMapSched (fun fp => fetch_latent vaecache fp data_backend_id)
        filepaths sched).length = filepaths.length ∧
    (∀ i : ℕ, (executorMapSched
        (fun fp => fetch_latent vaecache fp data_backend_id)
        filepaths sched)[i]? =
      filepaths[i]?.map
        (fun fp => some (fetch_latent vaecache fp data_backend_id))) ∧
    (executorMapSched (fun fp => fetch_latent vaecache fp data_backend_id)
        filepaths sched).reduceOption =
      filepaths.map (fun fp => fetch_latent vaecache fp data_backend_id) := by
  have hmain : executorMapSched
      (fun fp => fetch_latent vaecache fp data_backend_id) filepaths sched =
      filepaths.map
        (fun fp => some (fetch_latent vaecache fp data_backend_id)) := by
    unfold executorMapSched
    rw [fillSlots_perm filepaths.length _ sched hperm]
    apply List.ext_getElem?
    intro j
    by_cases hj : j < filepaths.length
    · rw [List.getElem?_map, List.getElem?_range hj, List.getElem?_map,
        List.getElem?_eq_getElem hj]
      simp [List.getD_eq_getElem?_getD, List.getElem?_eq_getElem hj]
    · rw [List.getElem?_eq_none (by simpa using Nat.le_of_not_lt hj),
        List.getElem?_eq_none (by simpa using Nat.le_of_not_lt hj)]
  refine ⟨hmain, by rw [hmain]; simp, fun i => by rw [hmain]; simp, ?_⟩
  rw [hmain]
  simp only [List.reduceOption, List.filterMap_map]
  exact congrFun (List.filterMap_eq_map _) filepaths

/-- C7 witness: two keys fetched under the reversed completion schedule
still come out in input order. -/
theorem C7_fetch_order_schedule_independent_witness :
    executorMapSched (fun fp => fetch_latent cacheW fp "b1")
        ["a.png", "b.png"] [1, 0] =
      ["a.png", "b.png"].map
        (fun fp => some (fetch_latent cacheW fp "b1")) :=
  (C7_fetch_order_schedule_independent cacheW ["a.png", "b.png"] "b1" [1, 0]
    (by decide)).1

/-! Strict shape validation (`compute_latents`). -/

/-- The validation loop finds no mismatch exactly when every latent's
shape equals the reference shape. -/
theorem findShapeMismatch_none_iff (refShape : List Nat) :
    ∀ (ts : List Tensor) (fps : List String),
      findShapeMismatch refShape ts fps = none ↔ ∀ t ∈ ts, t.shape = refShape
  | [], fps => by simp [findShapeMismatch]
  | t :: ts, fps => by
    simp only [findShapeMismatch]
    by_cases ht : t.shape = refShape
    · rw [if_neg (not_not_intro ht), List.drop_one,
        findShapeMismatch_none_iff refShape ts fps.tail]
      simp [ht]
    · rw [if_pos ht]
      simp [ht]

/-- If the validation loop reports `(fp, sh)`, then `sh` differs from the
reference and some index holds a latent of shape `sh` with key `fp`. -/
theorem findShapeMismatch_some (refShape : List Nat) :
    ∀ (ts : List Tensor) (fps : List String) (fp : String) (sh : List Nat),
      ts.length ≤ fps.length →
      findShapeMismatch refShape ts fps = some (fp, sh) →
      sh ≠ refShape ∧
      ∃ i : ℕ, ∃ t, ts[i]? = some t ∧ t.shape = sh ∧ fps[i]? = some fp
  | [], fps, fp, sh, _, h => by simp [findShapeMismatch] at h
  | t :: ts, fps, fp, sh, hlen, h => by
    simp only [findShapeMismatch] at h
    by_cases ht : t.shape = refShape
    · rw [if_neg (not_not_intro ht)] at h
      obtain ⟨hsh, i, t', hts, hshape, hfp⟩ :=
        findShapeMismatch_some refShape ts (fps.drop 1) fp sh
          (by
            simp only [List.length_drop]
            simp only [List.length_cons] at hlen
            omega) h
      refine ⟨hsh, i + 1, t', by simpa using hts, hshape, ?_⟩
      rw [show i + 1 = 1 + i by omega, ← List.getElem?_drop fps 1 i]
      exact hfp
    · rw [if_pos ht] at h
      injection h with h'
      cases fps with
      | nil => simp at hlen
      | cons g gs =>
        obtain ⟨h1, h2⟩ := Prod.mk.injEq .. ▸ h'
        exact ⟨h2 ▸ ht, 0, t, by simp, h2, by simpa using h1⟩

/-- C4: the strict validator of `compute_latents` raises exactly when some
fetched latent's shape differs from the first latent's shape; on mismatch
the reported error names a key from the batch whose latent has the
reported shape, together with the reference shape, and the two shapes
differ; and a non-exceptional return implies every fetched latent has the
reference shape. -/
theorem C4_strict_shape_validator (vaecache : String → String → Tensor)
    (filepaths : List String) (data_backend_id : String)
    (hne : filepaths ≠ []) :
    ((∃ e, compute_latents vaecache filepaths data_backend_id = .error e) ↔
      ∃ fp ∈ filepaths,
        (fetch_latent vaecache fp data_backend_id).shape ≠
        (fetch_latent vaecache (filepaths.headD "") data_backend_id).shape) ∧
    (∀ fp sh ref,
      compute_latents vaecache filepaths data_backend_id =
        .error (.shapeMismatchError fp sh ref) →
      ref = (fetch_latent vaecache (filepaths.headD "")
          data_backend_id).shape ∧
      fp ∈ filepaths ∧
      sh = (fetch_latent vaecache fp data_backend_id).shape ∧ sh ≠ ref) ∧
    (∀ t, compute_latents vaecache filepaths data_backend_id = .ok t →
      ∀ fp ∈ filepaths,
        (fetch_latent vaecache fp data_backend_id).shape =
        (fetch_latent vaecache (filepaths.headD "")
          data_backend_id).shape) := by
  obtain ⟨f, rest, rfl⟩ := List.exists_cons_of_ne_nil hne
  cases hfind : findShapeMismatch
      (fetch_latent vaecache f data_backend_id).shape
      (fetch_latent vaecache f data_backend_id ::
        rest.map (fun fp => fetch_latent vaecache fp data_backend_id))
      (f :: rest) with
  | none =>
    have hall := (findShapeMismatch_none_iff _ _ _).mp hfind
    have hmem : ∀ fp ∈ f :: rest,
        (fetch_latent vaecache fp data_backend_id).shape =
        (fetch_latent vaecache f data_backend_id).shape := by
      intro fp hfp
      have hm : fetch_latent vaecache fp data_backend_id ∈
          (f :: rest).map (fun fp => fetch_latent vaecache fp data_backend_id) :=
        List.mem_map.mpr ⟨fp, hfp, rfl⟩
      rw [List.map_cons] at hm
      exact hall _ hm
    obtain ⟨u, hu⟩ : ∃ u,
        torch_stack (fetch_latent vaecache f data_backend_id ::
          rest.map (fun fp => fetch_latent vaecache fp data_backend_id)) =
          .ok u := by
      unfold torch_stack
      simp only [List.head?_cons]
      rw [if_pos]
      · exact ⟨_, rfl⟩
      · rw [List.all_eq_true]
        intro t htm
        exact decide_eq_true (hall t htm)
    have hres : compute_latents vaecache (f :: rest) data_backend_id
        = .ok u := by
      unfold compute_latents
      simp only [List.map_cons, List.head?_cons, hfind]
      exact hu
    refine ⟨?_, ?_, ?_⟩
    · constructor
      · rintro ⟨e, he⟩
        rw [hres] at he
        exact absurd he (by simp)
      · rintro ⟨fp, hfp, hne2⟩
        exact absurd (hmem fp hfp) hne2
    · intro fp sh ref heq
      rw [hres] at heq
      exact absurd heq (by simp)
    · intro t _ fp hfp
      exact hmem fp hfp
  | some p =>
    obtain ⟨fp0, sh0⟩ := p
    have hres : compute_latents vaecache (f :: rest) data_backend_id =
        .error (.shapeMismatchError fp0 sh0
          (fetch_latent vaecache f data_backend_id).shape) := by
      unfold compute_latents
      simp only [List.map_cons, List.head?_cons, hfind]
      rfl
    obtain ⟨hsh, i, t', hts, hshape, hfp⟩ :=
      findShapeMismatch_some _ _ _ _ _ (by simp) hfind
    have ht' : t' = fetch_latent vaecache fp0 data_backend_id := by
      cases i with
      | zero =>
        simp only [List.getElem?_cons_zero] at hts hfp
        injection hts with hts
        injection hfp with hfp
        rw [← hts, ← hfp]
      | succ j =>
        simp only [List.getElem?_cons_succ, List.getElem?_map] at hts
        simp only [List.getElem?_cons_succ] at hfp
        rw [hfp] at hts
        exact (by simpa using hts : _ = t').symm
    refine ⟨?_, ?_, ?_⟩
    · constructor
      · intro _
        refine ⟨fp0, List.getElem?_mem hfp, ?_⟩
        simp only [List.headD_cons]
        rw [← ht', hshape]
        exact hsh
      · intro _
        exact ⟨_, hres⟩
    · intro fp sh ref heq
      rw [hres] at heq
      simp only [Except.error.injEq, CollateError.shapeMismatchError.injEq] at heq
      obtain ⟨hfp2, hsh2, href⟩ := heq
      subst hfp2
      subst hsh2
      subst href
      exact ⟨by simp, List.getElem?_mem hfp, by rw [← ht', hshape], hsh⟩
    · intro t heq
      rw [hres] at heq
      exact absurd heq (by simp)

/-- C4 witness: a singleton batch validates successfully and its only
latent matches the reference shape. -/
theorem C4_strict_shape_validator_witness :
    (fetch_latent cacheW "a.png" "b1").shape =
      (fetch_latent cacheW (["a.png"].headD "") "b1").shape :=
  (C4_strict_shape_validator cacheW ["a.png"] "b1" (by decide)).2.2
    ⟨[1, 1, 2, 2], [1, 2, 3, 4]⟩ rfl "a.png" (by simp)

/-! The lenient (diagnostic-only) shape check on the stacked tensor. -/

/-- The diagnostic loop is silent on a uniformly-shaped slice list. -/
theorem collectShapeDiagnostics_nil (refShape : List Nat) :
    ∀ (ts : List Tensor) (fps : List String),
      (∀ t ∈ ts, t.shape = refShape) →
      collectShapeDiagnostics refShape ts fps = []
  | [], _, _ => rfl
  | t :: ts, fps, h => by
    simp only [collectShapeDiagnostics,
      if_neg (not_not_intro (h t (List.mem_cons_self t ts)))]
    exact collectShapeDiagnostics_nil refShape ts (fps.drop 1)
      (fun u hu => h u (List.mem_cons_of_mem t hu))

/-- Every slice of a tensor (iteration along dimension 0) has the tail of
the tensor's shape as its shape — slices are uniformly shaped by
construction. -/
theorem unstack_shape_eq :
    ∀ (t : Tensor), ∀ s ∈ unstack t, s.shape = t.shape.tail
  | ⟨[], d⟩, s, hs => by simp [unstack] at hs
  | ⟨n :: rest, d⟩, s, hs => by
    simp only [unstack] at hs
    obtain ⟨i, hi, heq⟩ := List.mem_map.mp hs
    rw [← heq]
    exact rfl

/-- The lenient check returns no diagnostics on any tensor with at least
one slice. -/
theorem check_latent_shapes_uniform (t : Tensor) (filepaths : List String)
    (hne : unstack t ≠ []) :
    check_latent_shapes t filepaths = .ok [] := by
  obtain ⟨s0, rest0, hcons⟩ := List.exists_cons_of_ne_nil hne
  have hall : ∀ x ∈ s0 :: rest0, x.shape = s0.shape := by
    intro x hx
    rw [unstack_shape_eq t x (hcons ▸ hx),
      ← unstack_shape_eq t s0 (hcons ▸ List.mem_cons_self s0 rest0)]
  unfold check_latent_shapes
  simp only [hcons, List.head?_cons, Bind.bind, Except.bind, except_pure_def]
  rw [collectShapeDiagnostics_nil s0.shape (s0 :: rest0) filepaths hall]

/-- A successful `compute_latents` run returns exactly the stack of the
fetched latents. -/
theorem compute_latents_ok_stack {vaecache : String → String → Tensor}
    {filepaths : List String} {bid : String} {t : Tensor}
    (h : compute_latents vaecache filepaths bid = .ok t) :
    torch_stack (filepaths.map (fun fp => fetch_latent vaecache fp bid)) =
      .ok t := by
  simp only [compute_latents] at h
  split at h
  · exact absurd h (by simp [except_throw_def])
  split at h
  · exact absurd h (by simp [except_throw_def])
  exact h

/-- A successful stack has at least one slice. -/
theorem unstack_stack_ne_nil {latents : List Tensor} {stacked : Tensor}
    (h : torch_stack latents = .ok stacked) : unstack stacked ≠ [] := by
  unfold torch_stack at h
  split at h
  · exact absurd h (by simp [except_throw_def])
  rename_i t0 hhd
  split at h
  · rw [except_pure_def] at h
    injection h with h
    subst h
    cases latents with
    | nil => simp at hhd
    | cons a l =>
      simp only [unstack]
      intro hcontra
      rw [List.map_eq_nil_iff] at hcontra
      simp at hcontra
  · exact absurd h (by simp [except_throw_def])

/-- C10: the lenient shape check can never observe a mismatch in the main
collation path: every stacked tensor has uniformly-shaped slices, so the
check returns no diagnostics — both for any `torch.stack` result and for
the latent batch of any successful `collate_fn` run. -/
theorem C10_lenient_check_silent (latents : List Tensor)
    (filepaths : List String) (stacked : Tensor)
    (h : torch_stack latents = .ok stacked) :
    check_latent_shapes stacked filepaths = .ok [] ∧
    (∀ (st : StateTracker) (rand : ℕ → ℚ) (batch : List (List Example))
        (rec : BatchRecord) (exs' : List Example),
      collate_fn st rand batch = .ok (rec, exs') →
      check_latent_shapes rec.latent_batch (exs'.map (·.image_path)) =
        .ok []) := by
  constructor
  · exact check_latent_shapes_uniform stacked filepaths
      (unstack_stack_ne_nil h)
  · intro st rand batch rec exs' hc
    obtain ⟨-, -, -, -, ⟨exl, hlast, hcl⟩, -⟩ := collate_fn_ok_inv hc
    exact check_latent_shapes_uniform rec.latent_batch _
      (unstack_stack_ne_nil (compute_latents_ok_stack hcl))

/-- C10 witness: the concrete stacked fixture passes the lenient check
with no diagnostics. -/
theorem C10_lenient_check_silent_witness :
    check_latent_shapes ⟨[1, 1, 2, 2], [1, 2, 3, 4]⟩ ["a.png"] = .ok [] :=
  (C10_lenient_check_silent [latW] ["a.png"] ⟨[1, 1, 2, 2], [1, 2, 3, 4]⟩
    rfl).1

end Collate
